import Mathlib

/-!
Shallow embedding of the climux task-routing and process-lifecycle core
(src/core/SessionStore.ts, src/core/ProcessManager.ts, the Router module,
src/providers/*, src/utils/db.ts), together with theorems settling the
spec claims about it.

Conventions of the embedding:
* the SQLite tables behind the Session Store become lists of rows; each
  SQL statement becomes a pure function on the `DB` structure mirroring
  the statement text in SessionStore.ts;
* `db.run` outside a transaction commits (persists) after every single
  statement (src/utils/db.ts, `run` saves unless `inTransaction`), so a
  multi-statement operation that does not open a transaction exposes the
  states after each statement prefix as durably committed;
* the asynchronous Node.js runtime is single-threaded and the code has no
  `await` between a check and the mutation it guards, so interleavings of
  concurrent calls are modelled as sequences of atomic state transitions;
* `provider.detect()` results are modelled as a per-provider boolean
  (one fixed availability configuration), and `new RegExp(pattern, "i")
  .test(task)` is modelled as a boolean-valued function on task strings
  carried by the routing rule.
-/

namespace Climux

/-- Session lifecycle status, from `SessionStatus` in the types module. -/
inductive Status where
  | pending
  | running
  | paused
  | completed
  | failed
  | crashed
  | timedOut
  deriving DecidableEq, Repr

/-- Log entry role, from `SessionLog.role`. -/
inductive Role where
  | user
  | assistant
  | system
  deriving DecidableEq, Repr

/-- One row of the `sessions` table (timestamps omitted: no claim here
depends on them). -/
structure SessionRow where
  id : String
  workspacePath : String
  provider : String
  task : Option String
  status : Status
  nativeSessionId : Option String
  pid : Option Nat
  deriving DecidableEq, Repr

/-- One row of the `session_logs` table; list position is insertion
order, which is the timestamp order used by `getSessionLogs`. -/
structure LogRow where
  sessionId : String
  role : Role
  content : String
  deriving DecidableEq, Repr

/-- One row of the `session_stats` table.  Token and line counters are
integers, `costEstimate` (a SQLite REAL) is modelled as a rational. -/
structure StatsRow where
  sessionId : String
  tokensIn : Int
  tokensOut : Int
  costEstimate : Rat
  filesChanged : Int
  linesAdded : Int
  linesRemoved : Int
  durationSeconds : Int
  deriving DecidableEq, Repr

/-- The Session Store database state: the three tables the claims touch. -/
structure DB where
  sessions : List SessionRow
  stats : List StatsRow
  logs : List LogRow
  deriving DecidableEq, Repr

def emptyDB : DB := ⟨[], [], []⟩

/-- The zeroed stats row inserted by `INSERT INTO session_stats
(session_id) VALUES (?)` : every other column takes its schema default 0. -/
def zeroStats (sid : String) : StatsRow := ⟨sid, 0, 0, 0, 0, 0, 0, 0⟩

/-- Embeds `SELECT * FROM sessions WHERE id = ?` (first row). -/
def getSession (db : DB) (id : String) : Option SessionRow :=
  db.sessions.find? (fun r => r.id == id)

/-- Embeds `SELECT * FROM session_stats WHERE session_id = ?` (first row). -/
def getSessionStats (db : DB) (sid : String) : Option StatsRow :=
  db.stats.find? (fun r => r.sessionId == sid)

/-- Embeds `SELECT * FROM session_logs WHERE session_id = ? ORDER BY timestamp
ASC` : filtering keeps insertion order. -/
def getSessionLogs (db : DB) (sid : String) : List LogRow :=
  db.logs.filter (fun r => r.sessionId == sid)

/-- Embeds `UPDATE sessions SET status = ? WHERE id = ?`. -/
def updateSessionStatus (db : DB) (id : String) (st : Status) : DB :=
  { db with sessions :=
      db.sessions.map (fun r => if r.id == id then { r with status := st } else r) }

/-- Embeds `UPDATE sessions SET pid = ? WHERE id = ?`. -/
def updateSessionPid (db : DB) (id : String) (pid : Option Nat) : DB :=
  { db with sessions :=
      db.sessions.map (fun r => if r.id == id then { r with pid := pid } else r) }

/-- Embeds `INSERT INTO session_logs (session_id, role, content) VALUES (?,?,?)`. -/
def addSessionLog (db : DB) (sid : String) (role : Role) (content : String) : DB :=
  { db with logs := db.logs ++ [⟨sid, role, content⟩] }

/-- The `Partial SessionStats` argument of `updateSessionStats`: a field
is `none` when absent from the partial object. -/
structure StatsDelta where
  tokensIn : Option Int
  tokensOut : Option Int
  costEstimate : Option Rat
  filesChanged : Option Int
  linesAdded : Option Int
  linesRemoved : Option Int
  durationSeconds : Option Int
  deriving DecidableEq, Repr

/-- A delta with every field absent. -/
def StatsDelta.empty : StatsDelta := ⟨none, none, none, none, none, none, none⟩

/-- True when no field of the partial is set; `updateSessionStats`
returns without issuing a write in that case (`updates.length === 0`). -/
def StatsDelta.isEmpty (p : StatsDelta) : Bool :=
  p.tokensIn.isNone && p.tokensOut.isNone && p.costEstimate.isNone &&
  p.filesChanged.isNone && p.linesAdded.isNone && p.linesRemoved.isNone &&
  p.durationSeconds.isNone

/-- The effect of the generated `UPDATE session_stats SET ...` row
expression: `tokens_in = tokens_in + ?`, `tokens_out = tokens_out + ?`,
`cost_estimate = cost_estimate + ?` are additive, the remaining four
columns are plain overwrites; absent fields are not in the SET list. -/
def applyDelta (p : StatsDelta) (r : StatsRow) : StatsRow :=
  { r with
    tokensIn := match p.tokensIn with | some v => r.tokensIn + v | none => r.tokensIn
    tokensOut := match p.tokensOut with | some v => r.tokensOut + v | none => r.tokensOut
    costEstimate := match p.costEstimate with | some v => r.costEstimate + v | none => r.costEstimate
    filesChanged := match p.filesChanged with | some v => v | none => r.filesChanged
    linesAdded := match p.linesAdded with | some v => v | none => r.linesAdded
    linesRemoved := match p.linesRemoved with | some v => v | none => r.linesRemoved
    durationSeconds := match p.durationSeconds with | some v => v | none => r.durationSeconds }

/-- Embeds `updateSessionStats(sessionId, stats)` from SessionStore.ts. -/
def updateSessionStats (db : DB) (sid : String) (p : StatsDelta) : DB :=
  if p.isEmpty then db
  else
    { db with stats :=
        db.stats.map (fun r => if r.sessionId == sid then applyDelta p r else r) }

/-- The session row inserted by `createSession` : status is the literal
`pending`, native session id and pid take their column defaults. -/
def newSessionRow (id ws prov : String) (task : Option String) : SessionRow :=
  ⟨id, ws, prov, task, Status.pending, none, none⟩

/-- First statement of `createSession` : `INSERT INTO sessions ...`. -/
def insertSessionRow (db : DB) (r : SessionRow) : DB :=
  { db with sessions := db.sessions ++ [r] }

/-- Second statement of `createSession` : `INSERT INTO session_stats
(session_id) VALUES (?)`. -/
def insertStatsRow (db : DB) (sid : String) : DB :=
  { db with stats := db.stats ++ [zeroStats sid] }

/-- Embeds `createSession(workspacePath, provider, task?)` : the state after
both of its `run` statements have executed. -/
def createSession (db : DB) (id ws prov : String) (task : Option String) : DB :=
  insertStatsRow (insertSessionRow db (newSessionRow id ws prov task)) id

/-- The durably committed states exposed by `createSession` : the two
INSERT statements go through `db.run`, which saves the database after
each statement because `createSession` never opens a transaction
(contrast `deleteSession`, which wraps its statements in
`transaction(...)`).  Index 0 is the state before the call, index 1 the
committed state after the session INSERT alone, index 2 the state after
both statements. -/
def createSessionCommits (db : DB) (id ws prov : String) (task : Option String) :
    List DB :=
  [db,
   insertSessionRow db (newSessionRow id ws prov task),
   createSession db id ws prov task]

/-- A registered provider as the Router sees it: its `name` and the
(fixed, for one availability configuration) result of `detect()`. -/
structure ProviderM where
  name : String
  available : Bool
  deriving DecidableEq, Repr

/-- A routing rule: `test` is the shallow embedding of
`new RegExp(rule.pattern, "i").test`, `provider` the target name. -/
structure RuleM where
  test : String → Bool
  provider : String

/-- The Router state built in the constructor: the provider map in
insertion order, the routing rules, the static fallback list. -/
structure RouterM where
  providers : List ProviderM
  routingRules : List RuleM
  fallbackOrder : List String

/-- Embeds `this.providers.get(name)` : the provider map is keyed by name. -/
def lookupProvider (ps : List ProviderM) (n : String) : Option ProviderM :=
  ps.find? (fun p => p.name == n)

/-- One lookup-and-probe step shared by the selection loops: the name of
the registered provider `n` when it exists and `detect()` is true. -/
def availTarget (ps : List ProviderM) (n : String) : Option String :=
  match lookupProvider ps n with
  | some pr => if pr.available then some pr.name else none
  | none => none

/-- Whether name `n` denotes a registered, available provider. -/
def availName (ps : List ProviderM) (n : String) : Bool :=
  match lookupProvider ps n with
  | some pr => pr.available
  | none => false

/-- Step 1 of `selectProvider` : the preferred name, when given,
registered, and available. -/
def preferredPick (r : RouterM) (preferred : Option String) : Option String :=
  match preferred with
  | some p => availTarget r.providers p
  | none => none

/-- Step 2 of `selectProvider` : first routing rule whose pattern
matches the task and whose target is registered and available. -/
def rulesPick (r : RouterM) (task : String) : Option String :=
  r.routingRules.findSome? (fun rule =>
    if rule.test task then availTarget r.providers rule.provider else none)

/-- Step 3 of `selectProvider` : first entry of the static fallback list
that is registered and available. -/
def fallbackPick (r : RouterM) : Option String :=
  r.fallbackOrder.findSome? (fun n => availTarget r.providers n)

/-- Step 4 of `selectProvider` : first available provider in
registration (map insertion) order. -/
def anyPick (r : RouterM) : Option String :=
  (r.providers.find? (fun p => p.available)).map (fun p => p.name)

/-- The names enumerated by the `getProviderNames()` of the provider
registry module, used in the no-provider error suggestion: the keys of
`providerFactories` in src/providers/index.ts. -/
def registryNames : List String :=
  ["claude-code", "codex", "gemini-cli", "opencode"]

/-- Embeds `Router.selectProvider(task, preferred?)` : the four steps in
order; the error payload models the thrown `BotCliError` whose
suggestion enumerates `getProviderNames()`. -/
def selectProvider (r : RouterM) (task : String) (preferred : Option String) :
    Except (List String) String :=
  match preferredPick r preferred with
  | some n => Except.ok n
  | none =>
    match rulesPick r task with
    | some n => Except.ok n
    | none =>
      match fallbackPick r with
      | some n => Except.ok n
      | none =>
        match anyPick r with
        | some n => Except.ok n
        | none => Except.error registryNames

/-- The precedence order of candidate names stated by the spec for
`selectProvider` : preferred, then matching rule targets in rule order,
then the static fallback list, then registration order. -/
def precedenceList (r : RouterM) (task : String) (preferred : Option String) :
    List String :=
  preferred.toList
    ++ r.routingRules.filterMap (fun rule =>
        if rule.test task then some rule.provider else none)
    ++ r.fallbackOrder
    ++ r.providers.map (fun p => p.name)

/-- Steps 1 to 3 of the precedence order only: the candidates that
`getFallbackChain` actually walks (it has no step 4 loop). -/
def precedenceHead (r : RouterM) (task : String) (preferred : Option String) :
    List String :=
  preferred.toList
    ++ r.routingRules.filterMap (fun rule =>
        if rule.test task then some rule.provider else none)
    ++ r.fallbackOrder

/-- Push a name keeping first-seen order: skip it when already present. -/
def dedupPush (acc : List String) (n : String) : List String :=
  if acc.contains n then acc else acc ++ [n]

/-- Step 1 of `getFallbackChain` : the preferred provider is pushed
without a dedup check (the chain is still empty). -/
def chainAddPreferred (r : RouterM) (preferred : Option String) : List String :=
  match preferred with
  | some p =>
    match lookupProvider r.providers p with
    | some pr => if pr.available then [pr.name] else []
    | none => []
  | none => []

/-- Step 2 loop body of `getFallbackChain` : a matching rule target is
pushed when registered, not already in `added`, and available. -/
def chainRuleStep (ps : List ProviderM) (task : String)
    (acc : List String) (rule : RuleM) : List String :=
  if rule.test task then
    match lookupProvider ps rule.provider with
    | some pr => if !(acc.contains pr.name) && pr.available then acc ++ [pr.name] else acc
    | none => acc
  else acc

/-- Step 3 loop body of `getFallbackChain` : a fallback-list entry is
pushed when registered, not already in `added`, and available. -/
def chainFallbackStep (ps : List ProviderM)
    (acc : List String) (n : String) : List String :=
  match lookupProvider ps n with
  | some pr => if !(acc.contains n) && pr.available then acc ++ [pr.name] else acc
  | none => acc

/-- Embeds `Router.getFallbackChain(task, preferred?)` : preferred, then the
routing-rule loop, then the fallback-order loop.  There is no step 4:
providers outside those three sources never enter the chain. -/
def getFallbackChain (r : RouterM) (task : String) (preferred : Option String) :
    List String :=
  r.fallbackOrder.foldl (chainFallbackStep r.providers)
    (r.routingRules.foldl (chainRuleStep r.providers task)
      (chainAddPreferred r preferred))

/-- Modelled from the spec claim for comparison: the chain the claim
describes, i.e. every distinct available provider encountered along the
FULL `selectProvider` precedence (steps 1 to 4), deduplicated by name in
first-seen order. -/
def fallbackChainClaimed (r : RouterM) (task : String) (preferred : Option String) :
    List String :=
  ((precedenceList r task preferred).filterMap (availTarget r.providers)).foldl
    dedupPush []

/-- The same collection over steps 1 to 3 only; the amended description
of what `getFallbackChain` builds. -/
def fallbackChainHead (r : RouterM) (task : String) (preferred : Option String) :
    List String :=
  ((precedenceHead r task preferred).filterMap (availTarget r.providers)).foldl
    dedupPush []

/-- The runtime-only `ManagedProcess` data the claims need: spawn time
in milliseconds and the in-memory output buffer. -/
structure ProcInfo where
  startTime : Nat
  outputBuf : List String
  deriving DecidableEq, Repr

/-- The ProcessManager state: the `processes` map as an association list
in insertion order, plus the configured concurrency ceiling. -/
structure PMState where
  processes : List (String × ProcInfo)
  maxConcurrent : Nat
  deriving DecidableEq, Repr

/-- Embeds `this.processes.get(sessionId)`. -/
def findProc (pm : PMState) (sid : String) : Option ProcInfo :=
  (pm.processes.find? (fun e => e.1 == sid)).map (fun e => e.2)

/-- Embeds `Map.set` : replace the entry when the key is present, else append. -/
def setProc (procs : List (String × ProcInfo)) (sid : String) (info : ProcInfo) :
    List (String × ProcInfo) :=
  if (procs.find? (fun e => e.1 == sid)).isSome then
    procs.map (fun e => if e.1 == sid then (sid, info) else e)
  else procs ++ [(sid, info)]

/-- Embeds `Map.delete` on an association list with distinct keys. -/
def removeProc (procs : List (String × ProcInfo)) (sid : String) :
    List (String × ProcInfo) :=
  procs.filter (fun e => !(e.1 == sid))

/-- The error thrown by `spawn` when `processes.size >= maxConcurrent`. -/
inductive SpawnErr where
  | capacityExceeded
  deriving DecidableEq, Repr

/-- Embeds `ProcessManager.spawn` restricted to the state it touches: the
capacity check, the registration of the managed process, and the
`running` status / pid writes.  The check and the `processes.set` are
separated by no `await` in the source, so one call is one atomic
transition of this model. -/
def spawn (pm : PMState) (db : DB) (sid : String) (startTime : Nat)
    (pid : Option Nat) : Except SpawnErr (PMState × DB) :=
  if pm.maxConcurrent ≤ pm.processes.length then
    Except.error SpawnErr.capacityExceeded
  else
    let pm1 : PMState := { pm with processes := setProc pm.processes sid ⟨startTime, []⟩ }
    let db1 := updateSessionStatus db sid Status.running
    let db2 := match pid with
      | some p => updateSessionPid db1 sid (some p)
      | none => db1
    Except.ok (pm1, db2)

/-- A sequence of `spawn` calls (one interleaving of concurrent calls);
returns the per-call success flags.  A failed call leaves the state
unchanged because `spawn` throws before any mutation. -/
def spawnSeq (pm : PMState) (db : DB) : List String → List Bool
  | [] => []
  | sid :: rest =>
    match spawn pm db sid 0 none with
    | Except.ok (pm1, db1) => true :: spawnSeq pm1 db1 rest
    | Except.error _ => false :: spawnSeq pm db rest

/-- Embeds `handleProcessExit` classification: exit code 0, then the external
kill signals, then a missing exit code, else a tool-signaled failure. -/
def classifyExit (code : Option Int) (signal : Option String) : Status :=
  if code == some 0 then Status.completed
  else if signal == some "SIGKILL" || signal == some "SIGTERM" then Status.crashed
  else if code == none then Status.crashed
  else Status.failed

/-- A `StatsDelta` setting only `durationSeconds`, as written by the
exit handler. -/
def durationDelta (d : Int) : StatsDelta :=
  ⟨none, none, none, none, none, none, some d⟩

/-- Embeds `handleCompletion(sessionId, status)` : finalize the status, clear
the pid, remove the runtime handle from the active set. -/
def handleCompletion (pm : PMState) (db : DB) (sid : String) (st : Status) :
    PMState × DB :=
  let db1 := updateSessionStatus db sid st
  let db2 := updateSessionPid db1 sid none
  ({ pm with processes := removeProc pm.processes sid }, db2)

/-- The signal-logging step of `handleProcessExit` : a system log entry
when the exit carried a signal, nothing otherwise. -/
def exitLogStep (db : DB) (sid : String) (signal : Option String) : DB :=
  match signal with
  | some s => addSessionLog db sid Role.system ("Process terminated by signal: " ++ s)
  | none => db

/-- Embeds `handleProcessExit(sessionId, code, signal)` at wall-clock time
`now` (milliseconds): no-op for an unknown handle; otherwise write the
duration (`Math.floor((now - startTime) / 1000)`, overwrite), log any
signal, classify, and run `handleCompletion`. -/
def handleProcessExit (pm : PMState) (db : DB) (sid : String)
    (code : Option Int) (signal : Option String) (now : Nat) : PMState × DB :=
  match findProc pm sid with
  | none => (pm, db)
  | some info =>
    let db1 := updateSessionStats db sid
      (durationDelta (Int.ofNat ((now - info.startTime) / 1000)))
    let db2 := exitLogStep db1 sid signal
    handleCompletion pm db2 sid (classifyExit code signal)

/-- Outcome of a ProcessManager call that can reject. -/
inductive CallOutcome where
  | ok
  | errNotFound
  deriving DecidableEq, Repr

/-- The signal `terminate` delivers to the OS process, when any. -/
inductive KillSig where
  | sigterm
  | sigkill
  deriving DecidableEq, Repr

/-- Embeds `ProcessManager.terminate(sessionId, force)` : with no live handle
it returns immediately (no error, no store access); otherwise it sends
SIGKILL (force) or SIGTERM, touching neither the process map (removal
happens only in the exit handler) nor the store. -/
def terminate (pm : PMState) (db : DB) (sid : String) (force : Bool) :
    CallOutcome × PMState × DB × Option KillSig :=
  match findProc pm sid with
  | none => (CallOutcome.ok, pm, db, none)
  | some _ =>
    (CallOutcome.ok, pm, db,
      some (if force then KillSig.sigkill else KillSig.sigterm))

/-- Embeds `ProcessManager.send(sessionId, input)` : throws when the session
has no live handle; otherwise logs the input as a `user` entry (and
writes it to stdin, outside the store model). -/
def send (pm : PMState) (db : DB) (sid : String) (input : String) :
    CallOutcome × DB :=
  match findProc pm sid with
  | none => (CallOutcome.errNotFound, db)
  | some _ => (CallOutcome.ok, addSessionLog db sid Role.user input)

/-- The statuses `waitForCompletion` treats as terminal. -/
def terminalStatuses : List Status :=
  [Status.completed, Status.failed, Status.crashed]

/-- Embeds `getSessionOutput(sessionId)` : the concatenation of the
`assistant`-role log contents in insertion order. -/
def assistantOutput (db : DB) (sid : String) : String :=
  String.join
    (((getSessionLogs db sid).filter (fun l => l.role == Role.assistant)).map
      (fun l => l.content))

/-- Possible outcomes of a `waitForCompletion` promise. -/
inductive WaitOutcome where
  | resolved (out : String)
  | rejectedNotFound
  | rejectedFailed
  deriving DecidableEq, Repr

/-- The synchronous head of `waitForCompletion` : with no live handle it
resolves immediately from persisted logs when the stored status is
terminal and rejects with a not-found error otherwise; with a live
handle it returns `none` here and waits for the exit events. -/
def waitImmediate (pm : PMState) (db : DB) (sid : String) : Option WaitOutcome :=
  match findProc pm sid with
  | some _ => none
  | none =>
    match getSession db sid with
    | some s =>
      if terminalStatuses.contains s.status then
        some (WaitOutcome.resolved (assistantOutput db sid))
      else some WaitOutcome.rejectedNotFound
    | none => some WaitOutcome.rejectedNotFound

/-- What a pending `waitForCompletion` does when the awaited session is
classified with `finalStatus` : `handleCompletion` emits
`session:completed` exactly when the status is `completed` (any other
terminal status emits `session:failed`), the `onComplete` listener
resolves with `getSessionOutput`, and the `onFailed` listener rejects
with an error.  `db` is the store state at event time. -/
def waitOnExit (db : DB) (sid : String) (finalStatus : Status) : WaitOutcome :=
  if finalStatus == Status.completed then
    WaitOutcome.resolved (assistantOutput db sid)
  else WaitOutcome.rejectedFailed

/-- Embeds `RunOptions.mode`. -/
inductive RunMode where
  | task
  | chat
  deriving DecidableEq, Repr

/-- Embeds `ClaudeCodeProvider.buildArgs` : task mode prepends the
non-interactive auto-accept flags; the task is pushed last. -/
def claudeCodeBuildArgs (task : String) (mode : RunMode) : List String :=
  (match mode with
    | RunMode.task => ["--print", "--dangerously-skip-permissions"]
    | RunMode.chat => []) ++ [task]

/-- Embeds `GeminiCliProvider.buildArgs` : the task is the `-p` prompt
argument; task mode appends the sandbox flag after it. -/
def geminiCliBuildArgs (task : String) (mode : RunMode) : List String :=
  ["-p", task] ++
    (match mode with
      | RunMode.task => ["--sandbox=false"]
      | RunMode.chat => [])

/-- Embeds `CodexProvider.buildArgs` : the `exec` subcommand, the task-mode
auto flag, then the task last. -/
def codexBuildArgs (task : String) (mode : RunMode) : List String :=
  ["exec"] ++
    (match mode with
      | RunMode.task => ["--full-auto"]
      | RunMode.chat => []) ++ [task]

/-- Embeds `OpenCodeProvider.buildArgs` : the `run` subcommand, the task as the
positional message, the `-m` inner-provider flag when the field is
truthy (non-empty), and the JSON format flags in task mode. -/
def openCodeBuildArgs (inner : String) (task : String) (mode : RunMode) :
    List String :=
  ["run", task] ++
    (if inner != "" then ["-m", inner] else []) ++
    (match mode with
      | RunMode.task => ["--format", "json"]
      | RunMode.chat => [])

/-- Error classes a `runWithProvider` attempt can end with, from the
`BotCliError` codes the Router inspects plus the plain capacity and
timeout errors raised by the ProcessManager. -/
inductive AttemptErr where
  | capacityExceeded
  | timedOut
  | sessionFailed
  | providerUnavailable
  | rateLimited
  deriving DecidableEq, Repr

/-- The `RunResult` record. -/
structure RunResultM where
  sessionId : String
  status : Status
  output : String
  stats : Option StatsRow
  summary : Option String

/-- The externally determined outcomes of one `runWithProvider`
attempt: whether `spawn` throws (and with what), what
`waitForCompletion` does in task mode, the workspace git-diff numbers,
and the `extractSummary` heuristic treated as an oracle on the output
text (its regex scanning is outside this model). -/
structure AttemptEnv where
  spawnFails : Option AttemptErr
  waitResult : Except AttemptErr String
  gitFilesChanged : Int
  gitLinesAdded : Int
  gitLinesRemoved : Int
  summaryOf : String → String

/-- Embeds `Router.runWithProvider(provider, task, options)` as a state
transformer on the session store, with `sid` the generated uuid:
create the session, log the task as a `user` entry, spawn (recording
`running`), then in task mode wait, fold the git-diff numbers in with
overwrite semantics, and return the result; any error after session
creation lands in the catch block, which stores status `failed` and
rethrows. -/
def runWithProvider (env : AttemptEnv) (db : DB)
    (sid providerName wsPath task : String) (mode : RunMode) :
    Except AttemptErr RunResultM × DB :=
  let db1 := createSession db sid wsPath providerName (some task)
  let db2 := addSessionLog db1 sid Role.user task
  match env.spawnFails with
  | some e => (Except.error e, updateSessionStatus db2 sid Status.failed)
  | none =>
    let db3 := updateSessionStatus db2 sid Status.running
    match mode with
    | RunMode.chat =>
      (Except.ok ⟨sid, Status.running, "", getSessionStats db3 sid, none⟩, db3)
    | RunMode.task =>
      match env.waitResult with
      | Except.error e => (Except.error e, updateSessionStatus db3 sid Status.failed)
      | Except.ok output =>
        let db4 := updateSessionStats db3 sid
          ⟨none, none, none, some env.gitFilesChanged, some env.gitLinesAdded,
            some env.gitLinesRemoved, none⟩
        let finalStatus := match getSession db4 sid with
          | some s => s.status
          | none => Status.failed
        (Except.ok ⟨sid, finalStatus, output, getSessionStats db4 sid,
          some (env.summaryOf output)⟩, db4)

/-- The partial update of the claim example: 100 tokens in, 3 files. -/
def deltaA : StatsDelta := ⟨some 100, none, none, some 3, none, none, none⟩

/-- The second partial update of the claim example: 50 tokens in, 5 files. -/
def deltaB : StatsDelta := ⟨some 50, none, none, some 5, none, none, none⟩

/-- Store holding one zeroed stats row for the C4 witness. -/
def dbC4 : DB := ⟨[], [zeroStats "s1"], []⟩

/-- The committed state of `createSession` after its first statement
only, starting from an empty store. -/
def dbMidC2 : DB :=
  (createSessionCommits emptyDB "s1" "/w" "claude-code" none).getD 1 emptyDB

/-- ProcessManager state for the C3 witness: one live handle for
session s1 spawned at time 0. -/
def pmC3 : PMState := ⟨[("s1", ⟨0, []⟩)], 5⟩

/-- Store for the C3 witness: session s1 is running with pid 42 and has
a zeroed stats row. -/
def dbC3 : DB :=
  ⟨[⟨"s1", "/w", "claude-code", some "t", Status.running, none, some 42⟩],
   [zeroStats "s1"], []⟩

/-- Store for the C6 counterexample: session s1 is stored terminal
`failed` and has exactly one assistant log entry. -/
def dbC6 : DB :=
  ⟨[⟨"s1", "/w", "claude-code", some "t", Status.failed, none, none⟩],
   [zeroStats "s1"], [⟨"s1", Role.assistant, "out"⟩]⟩

/-- Environment for the C9 witness: `spawn` throws the capacity error. -/
def envC9 : AttemptEnv :=
  ⟨some AttemptErr.capacityExceeded, Except.ok "", 0, 0, 0, fun _ => ""⟩

/-- Router for the C5 witness: claude-code registered but unavailable,
codex available; no rules; claude-code first in the fallback list. -/
def routerC5 : RouterM :=
  ⟨[⟨"claude-code", false⟩, ⟨"codex", true⟩], [], ["claude-code"]⟩

/-- Router for the C1 counterexample: one registered available provider
"a", no routing rules, empty fallback list. -/
def routerC1 : RouterM := ⟨[⟨"a", true⟩], [], []⟩

/-! Generic helper lemmas about list search. -/

theorem find?_append_of_none {α} {l l' : List α} {p : α → Bool}
    (h : l.find? p = none) : (l ++ l').find? p = l'.find? p := by
  rw [List.find?_append, h, Option.none_or]

theorem find?_append_left {α} {l l' : List α} {p : α → Bool} {a : α}
    (h : l.find? p = some a) : (l ++ l').find? p = some a := by
  rw [List.find?_append, h]
  rfl

theorem find?_mapIf {α} (l : List α) (p : α → Bool) (g : α → α)
    (hg : ∀ a, p a = true → p (g a) = true) :
    (l.map (fun a => if p a then g a else a)).find? p = (l.find? p).map g := by
  induction l with
  | nil => rfl
  | cons a t ih =>
    simp only [List.map_cons, List.find?_cons]
    cases hpa : p a with
    | true => simp [hpa, hg a hpa]
    | false => simp [hpa, ih]

theorem find?_congrOn {α} {l : List α} {p q : α → Bool}
    (h : ∀ a ∈ l, p a = q a) : l.find? p = l.find? q := by
  induction l with
  | nil => rfl
  | cons a t ih =>
    have ha := h a (List.mem_cons_self a t)
    simp only [List.find?_cons, ha]
    cases q a
    · exact ih (fun b hb => h b (List.mem_cons_of_mem a hb))
    · rfl

theorem find?_filter_not {α} (l : List α) (p : α → Bool) :
    (l.filter (fun a => !(p a))).find? p = none := by
  rw [List.find?_eq_none]
  intro a ha
  have := (List.mem_filter.mp ha).2
  simp only [Bool.not_eq_true'] at this
  simp [this]

theorem findSome?_guard {α} (l : List α) (q : α → Bool) :
    l.findSome? (fun a => if q a then some a else none) = l.find? q := by
  induction l with
  | nil => rfl
  | cons a t ih =>
    simp only [List.findSome?_cons, List.find?_cons]
    cases q a
    · simpa using ih
    · rfl

theorem find?_filterMap_eq_findSome? {α β} (l : List α) (f : α → Option β)
    (q : β → Bool) :
    (l.filterMap f).find? q =
      l.findSome? (fun a => match f a with
        | some b => if q b then some b else none
        | none => none) := by
  induction l with
  | nil => rfl
  | cons a t ih =>
    cases hfa : f a with
    | none => simp only [List.filterMap_cons, hfa, List.findSome?_cons, ih]
    | some b =>
      simp only [List.filterMap_cons, hfa, List.findSome?_cons, List.find?_cons]
      cases q b
      · simpa using ih
      · rfl

theorem findSome?_congrOn {α β} {l : List α} {f g : α → Option β}
    (h : ∀ a ∈ l, f a = g a) : l.findSome? f = l.findSome? g := by
  induction l with
  | nil => rfl
  | cons a t ih =>
    have ha := h a (List.mem_cons_self a t)
    simp only [List.findSome?_cons, ha]
    cases g a
    · exact ih (fun b hb => h b (List.mem_cons_of_mem a hb))
    · rfl

/-! Store-level lemmas. -/

theorem applyDelta_of_isEmpty {p : StatsDelta} (h : p.isEmpty = true)
    (r : StatsRow) : applyDelta p r = r := by
  simp only [StatsDelta.isEmpty, Bool.and_eq_true, Option.isNone_iff_eq_none] at h
  obtain ⟨⟨⟨⟨⟨⟨h1, h2⟩, h3⟩, h4⟩, h5⟩, h6⟩, h7⟩ := h
  simp [applyDelta, h1, h2, h3, h4, h5, h6, h7]

theorem getSessionStats_updateSessionStats (db : DB) (sid : String)
    (p : StatsDelta) :
    getSessionStats (updateSessionStats db sid p) sid =
      (getSessionStats db sid).map (applyDelta p) := by
  unfold updateSessionStats
  by_cases he : p.isEmpty = true
  · rw [if_pos he]
    cases h : getSessionStats db sid with
    | none => simp
    | some r => simp [applyDelta_of_isEmpty he]
  · rw [if_neg he]
    unfold getSessionStats
    show (db.stats.map (fun r => if r.sessionId == sid then applyDelta p r else r)).find?
        (fun r => r.sessionId == sid) = _
    exact find?_mapIf db.stats (fun r => r.sessionId == sid) (applyDelta p)
      (fun r hr => by simpa [applyDelta] using hr)

theorem getSession_updateSessionStatus (db : DB) (id : String) (st : Status) :
    getSession (updateSessionStatus db id st) id =
      (getSession db id).map (fun r => { r with status := st }) := by
  unfold getSession updateSessionStatus
  exact find?_mapIf db.sessions (fun r => r.id == id) (fun r => { r with status := st })
    (fun r hr => hr)

theorem getSession_updateSessionPid (db : DB) (id : String) (pid : Option Nat) :
    getSession (updateSessionPid db id pid) id =
      (getSession db id).map (fun r => { r with pid := pid }) := by
  unfold getSession updateSessionPid
  exact find?_mapIf db.sessions (fun r => r.id == id) (fun r => { r with pid := pid })
    (fun r hr => hr)

theorem getSessionStats_updateSessionStatus (db : DB) (id sid : String)
    (st : Status) :
    getSessionStats (updateSessionStatus db id st) sid = getSessionStats db sid := rfl

theorem getSessionStats_updateSessionPid (db : DB) (id sid : String)
    (pid : Option Nat) :
    getSessionStats (updateSessionPid db id pid) sid = getSessionStats db sid := rfl

theorem getSessionStats_addSessionLog (db : DB) (sid sid' : String)
    (role : Role) (content : String) :
    getSessionStats (addSessionLog db sid' role content) sid =
      getSessionStats db sid := rfl

theorem getSession_addSessionLog (db : DB) (id sid' : String)
    (role : Role) (content : String) :
    getSession (addSessionLog db sid' role content) id = getSession db id := rfl

theorem getSession_updateSessionStats (db : DB) (id sid' : String)
    (p : StatsDelta) :
    getSession (updateSessionStats db sid' p) id = getSession db id := by
  unfold updateSessionStats
  by_cases he : p.isEmpty = true
  · rw [if_pos he]
  · rw [if_neg he]
    rfl

/-- C4 helper: the two-call effect of `applyDelta` in the closed form
used by the claim (additive fields fold in with `+`, snapshot fields are
last-write-wins, absent fields keep the stored value). -/
theorem applyDelta_applyDelta (p1 p2 : StatsDelta) (r : StatsRow) :
    applyDelta p2 (applyDelta p1 r) =
      { r with
        tokensIn := r.tokensIn + p1.tokensIn.getD 0 + p2.tokensIn.getD 0
        tokensOut := r.tokensOut + p1.tokensOut.getD 0 + p2.tokensOut.getD 0
        costEstimate := r.costEstimate + p1.costEstimate.getD 0 + p2.costEstimate.getD 0
        filesChanged := p2.filesChanged.getD (p1.filesChanged.getD r.filesChanged)
        linesAdded := p2.linesAdded.getD (p1.linesAdded.getD r.linesAdded)
        linesRemoved := p2.linesRemoved.getD (p1.linesRemoved.getD r.linesRemoved)
        durationSeconds :=
          p2.durationSeconds.getD (p1.durationSeconds.getD r.durationSeconds) } := by
  simp only [applyDelta]
  congr 1 <;>
    first
      | (cases p1.tokensIn <;> cases p2.tokensIn <;> simp)
      | (cases p1.tokensOut <;> cases p2.tokensOut <;> simp)
      | (cases p1.costEstimate <;> cases p2.costEstimate <;> simp)
      | (cases p1.filesChanged <;> cases p2.filesChanged <;> simp)
      | (cases p1.linesAdded <;> cases p2.linesAdded <;> simp)
      | (cases p1.linesRemoved <;> cases p2.linesRemoved <;> simp)
      | (cases p1.durationSeconds <;> cases p2.durationSeconds <;> simp)

/-- C4: for every session with an existing stats row, two successive
`updateSessionStats` calls accumulate `tokensIn`, `tokensOut` and
`costEstimate` additively, apply last-write-wins to `filesChanged`,
`linesAdded`, `linesRemoved` and `durationSeconds`, and leave fields
absent from the partial argument unchanged. -/
theorem updateSessionStats_two_calls (db : DB) (sid : String)
    (p1 p2 : StatsDelta) (r : StatsRow)
    (h : getSessionStats db sid = some r) :
    getSessionStats (updateSessionStats (updateSessionStats db sid p1) sid p2) sid =
      some { r with
        tokensIn := r.tokensIn + p1.tokensIn.getD 0 + p2.tokensIn.getD 0
        tokensOut := r.tokensOut + p1.tokensOut.getD 0 + p2.tokensOut.getD 0
        costEstimate := r.costEstimate + p1.costEstimate.getD 0 + p2.costEstimate.getD 0
        filesChanged := p2.filesChanged.getD (p1.filesChanged.getD r.filesChanged)
        linesAdded := p2.linesAdded.getD (p1.linesAdded.getD r.linesAdded)
        linesRemoved := p2.linesRemoved.getD (p1.linesRemoved.getD r.linesRemoved)
        durationSeconds :=
          p2.durationSeconds.getD (p1.durationSeconds.getD r.durationSeconds) } := by
  rw [getSessionStats_updateSessionStats, getSessionStats_updateSessionStats, h]
  simp [applyDelta_applyDelta]

/-- C4 witness: on a fresh zeroed row, updating with tokensIn 100 and
filesChanged 3, then tokensIn 50 and filesChanged 5, yields tokensIn 150
and filesChanged 5, everything else unchanged. -/
theorem updateSessionStats_two_calls_witness :
    getSessionStats dbC4 "s1" = some (zeroStats "s1") ∧
    getSessionStats (updateSessionStats (updateSessionStats dbC4 "s1" deltaA) "s1" deltaB) "s1" =
      some ⟨"s1", 150, 0, 0, 5, 0, 0, 0⟩ :=
  ⟨rfl, by
    have h := updateSessionStats_two_calls dbC4 "s1" deltaA deltaB (zeroStats "s1") rfl
    rw [h]
    simp [deltaA, deltaB, zeroStats]⟩

/-- C2 counterexample: `createSession` issues its two INSERT statements
through `db.run` with no surrounding transaction, so the state after
the first statement alone is durably committed and observable; in it the
session "s1" exists while its stats row does not, refuting both-writes-
or-neither atomicity. -/
theorem createSession_not_atomic_cex :
    (getSession dbMidC2 "s1").isSome = true ∧
    getSessionStats dbMidC2 "s1" = none := by
  constructor <;> rfl

/-- C2 amended: `createSession` inserts the pending session row and then
the zeroed stats row as two separate auto-committed statements; once
both complete, the session is `pending` and its zeroed stats row exists,
but the committed intermediate state (after the session INSERT alone)
contains the session without any stats row. -/
theorem createSession_commits_spec (db : DB) (id ws prov : String)
    (task : Option String)
    (hs : getSession db id = none) (hst : getSessionStats db id = none) :
    getSession (createSession db id ws prov task) id =
      some (newSessionRow id ws prov task) ∧
    getSessionStats (createSession db id ws prov task) id = some (zeroStats id) ∧
    getSession ((createSessionCommits db id ws prov task).getD 1 emptyDB) id =
      some (newSessionRow id ws prov task) ∧
    getSessionStats ((createSessionCommits db id ws prov task).getD 1 emptyDB) id =
      none := by
  have hs' : db.sessions.find? (fun r => r.id == id) = none := hs
  have hst' : db.stats.find? (fun r => r.sessionId == id) = none := hst
  have hmid : getSession (insertSessionRow db (newSessionRow id ws prov task)) id =
      some (newSessionRow id ws prov task) := by
    show (db.sessions ++ [newSessionRow id ws prov task]).find?
        (fun r => r.id == id) = _
    rw [find?_append_of_none hs']
    simp [List.find?, newSessionRow]
  refine ⟨?_, ?_, hmid, hst⟩
  · exact hmid
  · show (db.stats ++ [zeroStats id]).find? (fun r => r.sessionId == id) = _
    rw [find?_append_of_none hst']
    simp [List.find?, zeroStats]

/-- C2 witness: the amended statement, instantiated on the empty store. -/
theorem createSession_commits_spec_witness :
    getSession emptyDB "s1" = none ∧
    getSession (createSession emptyDB "s1" "/w" "claude-code" none) "s1" =
      some (newSessionRow "s1" "/w" "claude-code" none) := by
  refine ⟨rfl, ?_⟩
  exact (createSession_commits_spec emptyDB "s1" "/w" "claude-code" none rfl rfl).1

/-- C10: `terminate` on a session with no live managed process returns
normally, leaves the ProcessManager and the session store untouched, and
sends no signal, while `send` on the same session rejects with a
not-found error and leaves the store untouched. -/
theorem terminate_no_handle_spec (pm : PMState) (db : DB) (sid : String)
    (force : Bool) (input : String) (h : findProc pm sid = none) :
    terminate pm db sid force = (CallOutcome.ok, pm, db, none) ∧
    send pm db sid input = (CallOutcome.errNotFound, db) := by
  unfold terminate send
  rw [h]
  exact ⟨rfl, rfl⟩

/-- C10 witness: an empty ProcessManager and empty store. -/
theorem terminate_no_handle_spec_witness :
    findProc ⟨[], 2⟩ "s1" = none ∧
    terminate ⟨[], 2⟩ emptyDB "s1" false =
      (CallOutcome.ok, ⟨[], 2⟩, emptyDB, none) :=
  ⟨rfl, (terminate_no_handle_spec ⟨[], 2⟩ emptyDB "s1" false "hello" rfl).1⟩

/-- Effects of `handleCompletion` on its session: status finalized, pid
cleared, stats untouched, runtime handle removed. -/
theorem handleCompletion_effects (pm : PMState) (db : DB) (sid : String)
    (st : Status) (s' : SessionRow) (hs : getSession db sid = some s') :
    getSession (handleCompletion pm db sid st).2 sid =
      some { s' with status := st, pid := none } ∧
    getSessionStats (handleCompletion pm db sid st).2 sid = getSessionStats db sid ∧
    findProc (handleCompletion pm db sid st).1 sid = none := by
  refine ⟨?_, rfl, ?_⟩
  · show getSession (updateSessionPid (updateSessionStatus db sid st) sid none) sid = _
    rw [getSession_updateSessionPid, getSession_updateSessionStatus, hs]
    rfl
  · show ((removeProc pm.processes sid).find? (fun e => e.1 == sid)).map (fun e => e.2) = none
    unfold removeProc
    rw [find?_filter_not]
    rfl

/-- C3: when a supervised process with a live handle exits, the terminal
status is `completed` for exit code 0, `failed` for a non-zero exit
code, and `crashed` for a kill signal or a missing exit code (the
hypothesis `code = none ∨ signal = none` is the Node exit-event
contract: a signal-killed process delivers a null code); the duration
from spawn time to exit time is written to stats with overwrite
semantics, the pid is cleared, the status is finalized, and the handle
leaves the active set. -/
theorem handleProcessExit_spec (pm : PMState) (db : DB) (sid : String)
    (code : Option Int) (signal : Option String) (now : Nat)
    (info : ProcInfo) (s : SessionRow) (r : StatsRow)
    (hproc : findProc pm sid = some info)
    (hsess : getSession db sid = some s)
    (hstats : getSessionStats db sid = some r)
    (hnode : code = none ∨ signal = none) :
    ((getSession (handleProcessExit pm db sid code signal now).2 sid).map
        (fun x => x.status) = some (classifyExit code signal)) ∧
    (code = some 0 → classifyExit code signal = Status.completed) ∧
    (∀ c : Int, code = some c → c ≠ 0 → classifyExit code signal = Status.failed) ∧
    (code = none → classifyExit code signal = Status.crashed) ∧
    ((getSessionStats (handleProcessExit pm db sid code signal now).2 sid).map
        (fun x => x.durationSeconds) =
      some (Int.ofNat ((now - info.startTime) / 1000))) ∧
    ((getSession (handleProcessExit pm db sid code signal now).2 sid).map
        (fun x => x.pid) = some none) ∧
    findProc (handleProcessExit pm db sid code signal now).1 sid = none := by
  have hlogsess : ∀ (dbx : DB) (sig : Option String),
      getSession (exitLogStep dbx sid sig) sid = getSession dbx sid := by
    intro dbx sig
    cases sig <;> rfl
  have hlogstats : ∀ (dbx : DB) (sig : Option String),
      getSessionStats (exitLogStep dbx sid sig) sid = getSessionStats dbx sid := by
    intro dbx sig
    cases sig <;> rfl
  have hexit : handleProcessExit pm db sid code signal now =
      handleCompletion pm
        (exitLogStep
          (updateSessionStats db sid
            (durationDelta (Int.ofNat ((now - info.startTime) / 1000))))
          sid signal)
        sid (classifyExit code signal) := by
    unfold handleProcessExit
    rw [hproc]
  have hsess2 : getSession
      (exitLogStep
        (updateSessionStats db sid
          (durationDelta (Int.ofNat ((now - info.startTime) / 1000))))
        sid signal) sid = some s := by
    rw [hlogsess, getSession_updateSessionStats, hsess]
  have hstats2 : getSessionStats
      (exitLogStep
        (updateSessionStats db sid
          (durationDelta (Int.ofNat ((now - info.startTime) / 1000))))
        sid signal) sid =
      some (applyDelta (durationDelta (Int.ofNat ((now - info.startTime) / 1000))) r) := by
    rw [hlogstats, getSessionStats_updateSessionStats, hstats]
    rfl
  obtain ⟨hc1, hc2, hc3⟩ := handleCompletion_effects pm _ sid (classifyExit code signal) s hsess2
  rw [hexit]
  refine ⟨?_, ?_, ?_, ?_, ?_, ?_, hc3⟩
  · rw [hc1]; rfl
  · intro h; subst h; rfl
  · intro c hcode hc0
    have hsig : signal = none := by
      cases hnode with
      | inl h => rw [hcode] at h; exact absurd h (by simp)
      | inr h => exact h
    subst hcode; subst hsig
    simp [classifyExit, hc0]
  · intro h
    subst h
    cases hsk : (signal == some "SIGKILL" || signal == some "SIGTERM") <;>
      simp [classifyExit, hsk]
  · rw [hc2, hstats2]
    simp [applyDelta, durationDelta]
  · rw [hc1]; rfl

/-- C3 witness: exit code 0 at time 2500ms classifies s1 as completed,
records duration 2, clears the pid and removes the handle. -/
theorem handleProcessExit_spec_witness :
    (findProc pmC3 "s1" = some ⟨0, []⟩ ∧ (some (0 : Int) = none ∨ (none : Option String) = none)) ∧
    (((getSession (handleProcessExit pmC3 dbC3 "s1" (some 0) none 2500).2 "s1").map
        (fun x => x.status) = some (classifyExit (some 0) none)) ∧
      (some (0 : Int) = some 0 → classifyExit (some 0) none = Status.completed) ∧
      (∀ c : Int, some (0 : Int) = some c → c ≠ 0 → classifyExit (some 0) none = Status.failed) ∧
      (some (0 : Int) = none → classifyExit (some 0) none = Status.crashed) ∧
      (((getSessionStats (handleProcessExit pmC3 dbC3 "s1" (some 0) none 2500).2 "s1").map
          (fun x => x.durationSeconds)) = some (Int.ofNat ((2500 - 0) / 1000))) ∧
      ((getSession (handleProcessExit pmC3 dbC3 "s1" (some 0) none 2500).2 "s1").map
          (fun x => x.pid) = some none) ∧
      findProc (handleProcessExit pmC3 dbC3 "s1" (some 0) none 2500).1 "s1" = none) :=
  ⟨⟨rfl, Or.inr rfl⟩,
   handleProcessExit_spec pmC3 dbC3 "s1" (some 0) none 2500 ⟨0, []⟩
     ⟨"s1", "/w", "claude-code", some "t", Status.running, none, some 42⟩
     (zeroStats "s1") rfl rfl rfl (Or.inr rfl)⟩

/-- C6 counterexample: when the awaited live session reaches the
terminal statuses `failed` or `crashed`, the pending `waitForCompletion`
promise is settled through the `session:failed` listener, which rejects
with an error — it does not resolve with the accumulated output as the
claim states for every terminal status. -/
theorem waitOnExit_rejects_cex :
    waitOnExit dbC6 "s1" Status.failed = WaitOutcome.rejectedFailed ∧
    waitOnExit dbC6 "s1" Status.crashed = WaitOutcome.rejectedFailed ∧
    WaitOutcome.rejectedFailed ≠ WaitOutcome.resolved (assistantOutput dbC6 "s1") := by
  refine ⟨rfl, rfl, ?_⟩
  intro h
  exact WaitOutcome.noConfusion h

/-- C6 amended: a pending `waitForCompletion` resolves with the
log-accumulated output when the session is classified `completed` and
rejects with an error when it is classified `failed` or `crashed`;
however, when the session is already terminal (any of completed, failed,
crashed) at call time, the call resolves immediately with the output
reconstructed from persisted assistant logs rather than failing. -/
theorem waitForCompletion_spec (pm : PMState) (db db' : DB) (sid : String)
    (s : SessionRow) (st : Status)
    (hnolive : findProc pm sid = none)
    (hsess : getSession db sid = some s)
    (hterm : terminalStatuses.contains s.status = true) :
    waitImmediate pm db sid = some (WaitOutcome.resolved (assistantOutput db sid)) ∧
    (st = Status.completed →
      waitOnExit db' sid st = WaitOutcome.resolved (assistantOutput db' sid)) ∧
    (st = Status.failed ∨ st = Status.crashed →
      waitOnExit db' sid st = WaitOutcome.rejectedFailed) := by
  refine ⟨?_, ?_, ?_⟩
  · have hmem : s.status ∈ terminalStatuses := by simpa using hterm
    unfold waitImmediate
    rw [hnolive, hsess]
    simp [hmem]
  · intro h; subst h; rfl
  · intro h; cases h with
    | inl h => subst h; rfl
    | inr h => subst h; rfl

/-- C6 witness: the amended statement on the store holding the failed
session s1 with one assistant log line "out". -/
theorem waitForCompletion_spec_witness :
    (findProc ⟨[], 2⟩ "s1" = none ∧ getSession dbC6 "s1" =
      some ⟨"s1", "/w", "claude-code", some "t", Status.failed, none, none⟩) ∧
    waitImmediate ⟨[], 2⟩ dbC6 "s1" =
      some (WaitOutcome.resolved (assistantOutput dbC6 "s1")) :=
  ⟨⟨rfl, rfl⟩,
   (waitForCompletion_spec ⟨[], 2⟩ dbC6 dbC6 "s1"
     ⟨"s1", "/w", "claude-code", some "t", Status.failed, none, none⟩
     Status.completed rfl rfl rfl).1⟩

theorem setProc_length (procs : List (String × ProcInfo)) (sid : String)
    (info : ProcInfo) : (setProc procs sid info).length ≤ procs.length + 1 := by
  unfold setProc
  by_cases h : (procs.find? (fun e => e.1 == sid)).isSome = true
  · rw [if_pos h]
    simp
  · rw [if_neg h]
    simp

/-- C7: `spawn` rejects with the capacity error exactly when the
active-process count is at or above the ceiling, a successful `spawn`
never pushes the count above the ceiling, and — the check and the
registration being a single atomic step (no `await` separates them in
the source, and the Node event loop serializes the calls) — three
spawn calls for distinct sessions against ceiling 2 succeed exactly
twice and fail exactly once, in every arrival order. -/
theorem spawn_capacity_spec :
    (∀ (pm : PMState) (db : DB) (sid : String) (t : Nat) (pid : Option Nat),
      pm.maxConcurrent ≤ pm.processes.length →
        spawn pm db sid t pid = Except.error SpawnErr.capacityExceeded) ∧
    (∀ (pm : PMState) (db : DB) (sid : String) (t : Nat) (pid : Option Nat)
        (pm1 : PMState) (db1 : DB),
      spawn pm db sid t pid = Except.ok (pm1, db1) →
        pm1.processes.length ≤ pm.maxConcurrent) ∧
    (∀ (a b c : String) (db : DB), a ≠ b → a ≠ c → b ≠ c →
      spawnSeq ⟨[], 2⟩ db [a, b, c] = [true, true, false]) := by
  refine ⟨?_, ?_, ?_⟩
  · intro pm db sid t pid h
    unfold spawn
    rw [if_pos h]
  · intro pm db sid t pid pm1 db1 h
    unfold spawn at h
    by_cases hc : pm.maxConcurrent ≤ pm.processes.length
    · rw [if_pos hc] at h
      exact Except.noConfusion h
    · rw [if_neg hc] at h
      have hpm : pm1 = { pm with processes := setProc pm.processes sid ⟨t, []⟩ } := by
        have := (Except.ok.inj h)
        exact (congrArg Prod.fst this).symm
      rw [hpm]
      show (setProc pm.processes sid ⟨t, []⟩).length ≤ pm.maxConcurrent
      have hlen := setProc_length pm.processes sid ⟨t, []⟩
      omega
  · intro a b c db hab hac hbc
    have h1 : (a == b) = false := beq_eq_false_iff_ne.mpr hab
    simp [spawnSeq, spawn, setProc, List.find?, h1]

/-- C7 witness: ceiling 2, three distinct sessions x, y, z. -/
theorem spawn_capacity_spec_witness :
    (("x" : String) ≠ "y" ∧ ("x" : String) ≠ "z" ∧ ("y" : String) ≠ "z") ∧
    spawnSeq ⟨[], 2⟩ emptyDB ["x", "y", "z"] = [true, true, false] :=
  ⟨⟨by decide, by decide, by decide⟩,
   spawn_capacity_spec.2.2 "x" "y" "z" emptyDB (by decide) (by decide) (by decide)⟩

theorem getSession_createSession (db : DB) (id ws prov : String)
    (task : Option String) (hs : getSession db id = none) :
    getSession (createSession db id ws prov task) id =
      some (newSessionRow id ws prov task) := by
  show (db.sessions ++ [newSessionRow id ws prov task]).find?
      (fun r => r.id == id) = _
  rw [find?_append_of_none hs]
  simp [List.find?, newSessionRow]

/-- C9: whenever a `runWithProvider` attempt ends in an error after the
session row has been created — a capacity error from `spawn`, a timeout
or failure rejection from `waitForCompletion`, or any other thrown
error — the catch block durably stores status `failed` for that session
before rethrowing (so the session is recorded `failed`, never `timeout`
and never left `pending`). -/
theorem runWithProvider_failure_spec (env : AttemptEnv) (db : DB)
    (sid providerName wsPath task : String) (mode : RunMode) (e : AttemptErr)
    (hfresh : getSession db sid = none)
    (herr : (runWithProvider env db sid providerName wsPath task mode).1 =
      Except.error e) :
    (getSession (runWithProvider env db sid providerName wsPath task mode).2 sid).map
      (fun x => x.status) = some Status.failed := by
  have hdb1 := getSession_createSession db sid wsPath providerName (some task) hfresh
  cases hsf : env.spawnFails with
  | some e2 =>
    simp only [runWithProvider, hsf]
    rw [getSession_updateSessionStatus, getSession_addSessionLog, hdb1]
    rfl
  | none =>
    cases mode with
    | chat =>
      simp only [runWithProvider, hsf] at herr
      exact Except.noConfusion herr
    | task =>
      cases hw : env.waitResult with
      | ok out =>
        simp only [runWithProvider, hsf, hw] at herr
        exact Except.noConfusion herr
      | error e2 =>
        simp only [runWithProvider, hsf, hw]
        rw [getSession_updateSessionStatus, getSession_updateSessionStatus,
          getSession_addSessionLog, hdb1]
        rfl

/-- C9 witness: a capacity error from spawn leaves the freshly created
session stored as failed. -/
theorem runWithProvider_failure_spec_witness :
    (getSession emptyDB "s1" = none ∧
      (runWithProvider envC9 emptyDB "s1" "claude-code" "/w" "t" RunMode.task).1 =
        Except.error AttemptErr.capacityExceeded) ∧
    (getSession (runWithProvider envC9 emptyDB "s1" "claude-code" "/w" "t"
        RunMode.task).2 "s1").map (fun x => x.status) = some Status.failed :=
  ⟨⟨rfl, rfl⟩,
   runWithProvider_failure_spec envC9 emptyDB "s1" "claude-code" "/w" "t"
     RunMode.task AttemptErr.capacityExceeded rfl rfl⟩

/-- C8: each provider's `buildArgs` (a pure function of its inputs, as
all these definitions are) returns different argument vectors for task
mode and chat mode, and the task text appears verbatim at the prompt
position: the final argument for claude-code and codex, the argument of
the `-p` prompt flag for gemini-cli, and the positional message right
after the `run` subcommand for opencode. -/
theorem buildArgs_spec (task inner : String) (mode : RunMode) :
    (claudeCodeBuildArgs task RunMode.task ≠ claudeCodeBuildArgs task RunMode.chat) ∧
    (geminiCliBuildArgs task RunMode.task ≠ geminiCliBuildArgs task RunMode.chat) ∧
    (codexBuildArgs task RunMode.task ≠ codexBuildArgs task RunMode.chat) ∧
    (openCodeBuildArgs inner task RunMode.task ≠ openCodeBuildArgs inner task RunMode.chat) ∧
    task ∈ claudeCodeBuildArgs task mode ∧
    task ∈ geminiCliBuildArgs task mode ∧
    task ∈ codexBuildArgs task mode ∧
    task ∈ openCodeBuildArgs inner task mode ∧
    (claudeCodeBuildArgs task mode).getLast? = some task ∧
    (codexBuildArgs task mode).getLast? = some task ∧
    (geminiCliBuildArgs task mode)[0]? = some "-p" ∧
    (geminiCliBuildArgs task mode)[1]? = some task ∧
    (openCodeBuildArgs inner task mode)[0]? = some "run" ∧
    (openCodeBuildArgs inner task mode)[1]? = some task := by
  refine ⟨?_, ?_, ?_, ?_, ?_, ?_, ?_, ?_, ?_, ?_, ?_, ?_, ?_, ?_⟩
  · intro h
    have hl := congrArg List.length h
    simp [claudeCodeBuildArgs] at hl
  · intro h
    have hl := congrArg List.length h
    simp [geminiCliBuildArgs] at hl
  · intro h
    have hl := congrArg List.length h
    simp [codexBuildArgs] at hl
  · intro h
    have hl := congrArg List.length h
    by_cases hi : (inner != "") = true <;> simp [openCodeBuildArgs, hi] at hl
  · cases mode <;> simp [claudeCodeBuildArgs]
  · cases mode <;> simp [geminiCliBuildArgs]
  · cases mode <;> simp [codexBuildArgs]
  · cases mode <;> by_cases hi : (inner != "") = true <;> simp [openCodeBuildArgs, hi]
  · cases mode <;> rfl
  · cases mode <;> rfl
  · rfl
  · cases mode <;> simp [geminiCliBuildArgs]
  · rfl
  · cases mode <;> by_cases hi : (inner != "") = true <;> simp [openCodeBuildArgs, hi]

/-- C8 witness: the mode distinction for claude-code at a concrete task. -/
theorem buildArgs_spec_witness :
    claudeCodeBuildArgs "t" RunMode.task ≠ claudeCodeBuildArgs "t" RunMode.chat :=
  (buildArgs_spec "t" "anthropic" RunMode.task).1

/-! Router lemmas: each selection step equals a `find?` over its
candidate-name segment. -/

theorem lookupProvider_name {ps : List ProviderM} {n : String} {pr : ProviderM}
    (h : lookupProvider ps n = some pr) : pr.name = n := by
  unfold lookupProvider at h
  have hb := List.find?_some h
  simp only [beq_iff_eq] at hb
  exact hb

theorem lookupProvider_mem {ps : List ProviderM} {n : String} {pr : ProviderM}
    (h : lookupProvider ps n = some pr) : pr ∈ ps := by
  unfold lookupProvider at h
  exact List.mem_of_find?_eq_some h

theorem availTarget_eq (ps : List ProviderM) (n : String) :
    availTarget ps n = if availName ps n then some n else none := by
  unfold availTarget availName
  cases h : lookupProvider ps n with
  | none => simp
  | some pr => simp [lookupProvider_name h]

theorem preferredPick_eq (r : RouterM) (preferred : Option String) :
    preferredPick r preferred = preferred.toList.find? (availName r.providers) := by
  cases preferred with
  | none => rfl
  | some p =>
    show availTarget r.providers p = [p].find? (availName r.providers)
    rw [availTarget_eq]
    cases h : availName r.providers p <;> simp [List.find?, h]

theorem rulesPick_eq (r : RouterM) (task : String) :
    rulesPick r task =
      (r.routingRules.filterMap (fun rule =>
        if rule.test task then some rule.provider else none)).find?
        (availName r.providers) := by
  rw [find?_filterMap_eq_findSome?]
  apply findSome?_congrOn
  intro rule _
  by_cases ht : rule.test task = true
  · simp only [ht, if_true]
    rw [availTarget_eq]
  · have ht' : rule.test task = false := by revert ht; cases rule.test task <;> simp
    simp [ht']

theorem fallbackPick_eq (r : RouterM) :
    fallbackPick r = r.fallbackOrder.find? (availName r.providers) := by
  rw [← findSome?_guard r.fallbackOrder (availName r.providers)]
  apply findSome?_congrOn
  intro n _
  rw [availTarget_eq]

theorem availName_self (p : ProviderM) (t : List ProviderM) :
    availName (p :: t) p.name = p.available := by
  unfold availName lookupProvider
  simp [List.find?]

theorem availName_cons_ne (p : ProviderM) (t : List ProviderM) {n : String}
    (h : ¬(p.name = n)) : availName (p :: t) n = availName t n := by
  unfold availName lookupProvider
  simp [List.find?, beq_eq_false_iff_ne.mpr h]

theorem anyPick_aux (ps : List ProviderM)
    (hnd : (ps.map (fun p => p.name)).Nodup) :
    (ps.map (fun p => p.name)).find? (availName ps) =
      (ps.find? (fun p => p.available)).map (fun p => p.name) := by
  induction ps with
  | nil => rfl
  | cons p t ih =>
    rw [List.map_cons, List.nodup_cons] at hnd
    simp only [List.map_cons, List.find?_cons, availName_self]
    cases hav : p.available with
    | true => rfl
    | false =>
      have hcongr : (t.map (fun p => p.name)).find? (availName (p :: t)) =
          (t.map (fun p => p.name)).find? (availName t) := by
        apply find?_congrOn
        intro n hn
        exact availName_cons_ne p t (fun he => hnd.1 (he ▸ hn))
      rw [hcongr, ih hnd.2]

theorem anyPick_eq (r : RouterM)
    (hnd : (r.providers.map (fun p => p.name)).Nodup) :
    anyPick r =
      (r.providers.map (fun p => p.name)).find? (availName r.providers) :=
  (anyPick_aux r.providers hnd).symm

/-- C5: `selectProvider` equals the first available name along the spec
precedence order (preferred, matching-rule targets, fallback list,
registration order) and errors with the registry enumeration when that
order holds no available name; consequently it never returns a provider
whose availability probe is false, and it errors whenever no registered
provider is available.  The hypothesis is the provider-map invariant
that registered names are distinct. -/
theorem selectProvider_spec (r : RouterM) (task : String)
    (preferred : Option String)
    (hnd : (r.providers.map (fun p => p.name)).Nodup) :
    (selectProvider r task preferred =
      match (precedenceList r task preferred).find? (availName r.providers) with
      | some n => Except.ok n
      | none => Except.error registryNames) ∧
    (∀ n, selectProvider r task preferred = Except.ok n →
      availName r.providers n = true) ∧
    ((∀ p ∈ r.providers, p.available = false) →
      selectProvider r task preferred = Except.error registryNames) := by
  have hfind : (precedenceList r task preferred).find? (availName r.providers) =
      ((preferredPick r preferred).or
        ((rulesPick r task).or ((fallbackPick r).or (anyPick r)))) := by
    unfold precedenceList
    rw [List.find?_append, List.find?_append, List.find?_append,
      preferredPick_eq, rulesPick_eq, fallbackPick_eq, anyPick_eq r hnd,
      Option.or_assoc, Option.or_assoc]
  have hmain : selectProvider r task preferred =
      match (precedenceList r task preferred).find? (availName r.providers) with
      | some n => Except.ok n
      | none => Except.error registryNames := by
    rw [hfind]
    unfold selectProvider
    cases preferredPick r preferred with
    | some n => rfl
    | none =>
      cases rulesPick r task with
      | some n => rfl
      | none =>
        cases fallbackPick r with
        | some n => rfl
        | none =>
          cases anyPick r with
          | some n => rfl
          | none => rfl
  refine ⟨hmain, ?_, ?_⟩
  · intro n h
    rw [hmain] at h
    cases hf : (precedenceList r task preferred).find? (availName r.providers) with
    | none => rw [hf] at h; exact Except.noConfusion h
    | some m =>
      rw [hf] at h
      have hmn : m = n := Except.ok.inj h
      have := List.find?_some hf
      rw [← hmn]
      exact this
  · intro hall
    rw [hmain]
    have hnone : (precedenceList r task preferred).find? (availName r.providers) =
        none := by
      rw [List.find?_eq_none]
      intro n _
      unfold availName
      cases hl : lookupProvider r.providers n with
      | none => simp
      | some pr =>
        have := hall pr (lookupProvider_mem hl)
        simp [this]
    rw [hnone]

/-- C5 witness: on `routerC5` the registered names are distinct, and the
selection falls through to codex, the first available name in precedence
order. -/
theorem selectProvider_spec_witness :
    (routerC5.providers.map (fun p => p.name)).Nodup ∧
    selectProvider routerC5 "t" none = Except.ok "codex" :=
  ⟨by decide, by
    have h := (selectProvider_spec routerC5 "t" none (by decide)).1
    rw [h]
    rfl⟩

/-! Chain-building lemmas: each `getFallbackChain` loop is the
dedup-fold of the available candidates of its segment. -/

theorem chainAddPreferred_eq (r : RouterM) (preferred : Option String) :
    chainAddPreferred r preferred =
      (preferred.toList.filterMap (availTarget r.providers)).foldl dedupPush [] := by
  cases preferred with
  | none => rfl
  | some p =>
    show (match lookupProvider r.providers p with
      | some pr => if pr.available then [pr.name] else []
      | none => []) = _
    cases hl : lookupProvider r.providers p with
    | none => simp [List.filterMap, availTarget, hl]
    | some pr =>
      cases hav : pr.available with
      | false => simp [List.filterMap, availTarget, hl, hav]
      | true => simp [List.filterMap, availTarget, hl, hav, dedupPush]

theorem pushIf_eq_dedupPush (acc : List String) (m : String) (b : Bool)
    (hb : b = true) :
    (if (!acc.contains m && b) = true then acc ++ [m] else acc) =
      dedupPush acc m := by
  subst hb
  unfold dedupPush
  by_cases hm : m ∈ acc
  · have hc : acc.contains m = true := by simpa using hm
    simp [hc, hm]
  · have hc : acc.contains m = false := by simpa using hm
    simp [hc, hm]

theorem chainRuleFold (ps : List ProviderM) (task : String) (rules : List RuleM) :
    ∀ acc : List String,
      rules.foldl (chainRuleStep ps task) acc =
        (rules.filterMap (fun rule =>
          if rule.test task then availTarget ps rule.provider else none)).foldl
          dedupPush acc := by
  induction rules with
  | nil => intro acc; rfl
  | cons rule t ih =>
    intro acc
    simp only [List.foldl_cons, List.filterMap_cons]
    by_cases ht : rule.test task = true
    · cases hl : lookupProvider ps rule.provider with
      | none =>
        have hava : availTarget ps rule.provider = none := by
          simp [availTarget, hl]
        have hstep : chainRuleStep ps task acc rule = acc := by
          simp [chainRuleStep, ht, hl]
        have hfr : (if rule.test task = true then availTarget ps rule.provider
            else none) = none := by
          rw [if_pos ht]
          exact hava
        rw [hstep, hfr]
        exact ih acc
      | some pr =>
        cases hav : pr.available with
        | false =>
          have hava : availTarget ps rule.provider = none := by
            simp [availTarget, hl, hav]
          have hstep : chainRuleStep ps task acc rule = acc := by
            simp [chainRuleStep, ht, hl, hav]
          have hfr : (if rule.test task = true then availTarget ps rule.provider
              else none) = none := by
            rw [if_pos ht]
            exact hava
          rw [hstep, hfr]
          exact ih acc
        | true =>
          have hava : availTarget ps rule.provider = some pr.name := by
            simp [availTarget, hl, hav]
          have hstep : chainRuleStep ps task acc rule = dedupPush acc pr.name := by
            unfold chainRuleStep
            rw [if_pos ht, hl]
            show (if (!acc.contains pr.name && pr.available) = true
                then acc ++ [pr.name] else acc) = _
            exact pushIf_eq_dedupPush acc pr.name pr.available hav
          have hfr : (if rule.test task = true then availTarget ps rule.provider
              else none) = some pr.name := by
            rw [if_pos ht]
            exact hava
          rw [hstep, hfr]
          exact ih (dedupPush acc pr.name)
    · have hstep : chainRuleStep ps task acc rule = acc := by
        simp [chainRuleStep, ht]
      rw [hstep, if_neg ht]
      exact ih acc

theorem chainFallbackFold (ps : List ProviderM) (ns : List String) :
    ∀ acc : List String,
      ns.foldl (chainFallbackStep ps) acc =
        (ns.filterMap (availTarget ps)).foldl dedupPush acc := by
  induction ns with
  | nil => intro acc; rfl
  | cons n t ih =>
    intro acc
    simp only [List.foldl_cons, List.filterMap_cons]
    cases hl : lookupProvider ps n with
    | none =>
      have hava : availTarget ps n = none := by
        simp [availTarget, hl]
      have hstep : chainFallbackStep ps acc n = acc := by
        simp [chainFallbackStep, hl]
      rw [hstep, hava]
      exact ih acc
    | some pr =>
      have hn : pr.name = n := lookupProvider_name hl
      cases hav : pr.available with
      | false =>
        have hava : availTarget ps n = none := by
          simp [availTarget, hl, hav]
        have hstep : chainFallbackStep ps acc n = acc := by
          simp [chainFallbackStep, hl, hav]
        rw [hstep, hava]
        exact ih acc
      | true =>
        have hava : availTarget ps n = some pr.name := by
          simp [availTarget, hl, hav]
        have hstep : chainFallbackStep ps acc n = dedupPush acc pr.name := by
          unfold chainFallbackStep
          rw [hl]
          show (if (!acc.contains n && pr.available) = true
              then acc ++ [pr.name] else acc) = _
          rw [← hn]
          exact pushIf_eq_dedupPush acc pr.name pr.available hav
        rw [hstep, hava]
        exact ih (dedupPush acc pr.name)

/-- C1 counterexample: `getFallbackChain` never reaches providers that
appear only in the registration order (`selectProvider` step 4).  With
provider "a" available but absent from the rules and the fallback list,
the chain `Router.run` walks is empty, while the chain described by the
claim contains "a"; `run` would in fact throw all-providers-exhausted
here even though `selectProvider` would return "a". -/
theorem getFallbackChain_missing_step4_cex :
    getFallbackChain routerC1 "t" none = [] ∧
    fallbackChainClaimed routerC1 "t" none = ["a"] ∧
    getFallbackChain routerC1 "t" none ≠ fallbackChainClaimed routerC1 "t" none := by
  refine ⟨rfl, rfl, ?_⟩
  intro h
  exact List.noConfusion h

/-- C1 amended: the chain `Router.run` attempts (built by
`getFallbackChain`) collects every distinct available provider,
deduplicated by name in first-seen order, along the `selectProvider`
precedence restricted to its first three steps — preferred provider,
matching routing-rule targets in list order, then the static fallback
list in order.  Unlike `selectProvider`, it has no step collecting the
remaining registered providers, so an available provider outside those
three sources never enters the chain. -/
theorem getFallbackChain_spec (r : RouterM) (task : String)
    (preferred : Option String) :
    getFallbackChain r task preferred = fallbackChainHead r task preferred := by
  unfold getFallbackChain fallbackChainHead precedenceHead
  rw [List.filterMap_append, List.filterMap_append,
    List.foldl_append, List.foldl_append,
    chainFallbackFold, chainRuleFold, chainAddPreferred_eq]
  have hfuse : (r.routingRules.filterMap (fun rule =>
      if rule.test task then some rule.provider else none)).filterMap
        (availTarget r.providers) =
      r.routingRules.filterMap (fun rule =>
        if rule.test task then availTarget r.providers rule.provider else none) := by
    rw [List.filterMap_filterMap]
    apply List.filterMap_congr
    intro rule _
    by_cases ht : rule.test task = true
    · simp [ht]
    · have ht' : rule.test task = false := by revert ht; cases rule.test task <;> simp
      simp [ht']
  rw [hfuse]

/-- C1 witness: the amended chain equation instantiated on `routerC5`
(where the chain is the singleton codex is absent: only the fallback
entry claude-code is probed and it is unavailable, so the chain is
empty). -/
theorem getFallbackChain_spec_witness :
    getFallbackChain routerC5 "t" none = fallbackChainHead routerC5 "t" none :=
  getFallbackChain_spec routerC5 "t" none

end Climux
